import Mathlib

/- Verification of the go-hlld client library.

This file gives a shallow embedding of the hlld command protocol
(commands.go) and of the pipelining client (client source: Client.Close,
Client.reader, Client.Execute), and proves theorems about the embedded
definitions.  Go strings are modelled as Lean String (ASCII byte =
character for every string the protocol produces), Go float64 as Rat,
Go int as Int and uint64 as Nat with an explicit 2^64 bound where the
source checks one.  Fallible Go code returns a GoRes value; a Go runtime
panic (out of range index or slice) is the GoRes.panicked outcome. -/

namespace Hlld

/-- Error values produced by the library, one constructor per distinct
fmt.Errorf site in the Go source (the string payloads of formatted
errors are kept). -/
inductive GoErr where
  | notDecoded
  | invalidResponse (s : String)
  | parseFailed (s : String)
  | expectStart
  | invalidSetName
  | invalidPfx
  | missingKeys
  | invalidKey (s : String)
  | eof
  | clientClosed
  deriving DecidableEq, Repr

/-- Outcome of running a piece of Go code: a value, a returned error, or a
runtime panic. -/
inductive GoRes (α : Type) where
  | ok (a : α)
  | fail (e : GoErr)
  | panicked (msg : String)
  deriving DecidableEq, Repr

/-- One character of the class `[a-zA-Z0-9_-]` used by the validWord
regular expression in commands.go. -/
def wordChar (c : Char) : Bool :=
  c.isAlpha || c.isDigit || c == '_' || c == '-'

/-- validWord.MatchString: the anchored regular expression
`^[a-zA-Z0-9_-]+$` from commands.go. -/
def validWordMatch (s : String) : Bool :=
  !s.isEmpty && s.data.all wordChar

/-- validKey.MatchString: the anchored regular expression
`^[^ \t\r\n]+$` from commands.go. -/
def validKeyMatch (s : String) : Bool :=
  !s.isEmpty && s.data.all fun c => !(c == ' ' || c == '\t' || c == '\r' || c == '\n')

/-- CreateCommand from commands.go; field defaults are the Go zero
values used by the struct literal in NewCreateCommand. -/
structure CreateCommand where
  SetName : String
  Precision : Int := 0
  ErrThreshold : Rat := 0
  InMemory : Bool := false
  result : String := ""
  deriving DecidableEq, Repr

/-- NewCreateCommand from commands.go. -/
def NewCreateCommand (name : String) : GoRes CreateCommand :=
  if !validWordMatch name then .fail .invalidSetName
  else .ok { SetName := name }

/-- ListCommand from commands.go.  The Go field named Prefix is called
PrefixStr here (the name Prefix itself is avoided in this file). -/
structure ListCommand where
  PrefixStr : String
  lines : List String := []
  done : Bool := false
  deriving DecidableEq, Repr

/-- NewListCommand from commands.go. -/
def NewListCommand (pfx : String) : GoRes ListCommand :=
  if pfx ≠ "" && !validWordMatch pfx then .fail .invalidPfx
  else .ok { PrefixStr := pfx }

/-- ListEntry from commands.go. -/
structure ListEntry where
  Name : String
  ErrThreshold : Rat
  Precision : Int
  Size : Nat
  Storage : Nat
  deriving DecidableEq, Repr

/-- SetCommand from commands.go (shared by drop, close and clear). -/
structure SetCommand where
  Command : String
  SetName : String
  result : String := ""
  deriving DecidableEq, Repr

/-- NewDropCommand from commands.go. -/
def NewDropCommand (name : String) : GoRes SetCommand :=
  if !validWordMatch name then .fail .invalidSetName
  else .ok { Command := "drop", SetName := name }

/-- NewCloseCommand from commands.go. -/
def NewCloseCommand (name : String) : GoRes SetCommand :=
  if !validWordMatch name then .fail .invalidSetName
  else .ok { Command := "close", SetName := name }

/-- NewClearCommand from commands.go. -/
def NewClearCommand (name : String) : GoRes SetCommand :=
  if !validWordMatch name then .fail .invalidSetName
  else .ok { Command := "clear", SetName := name }

/-- SetKeysCommand from commands.go. -/
structure SetKeysCommand where
  SetName : String
  Keys : List String
  result : String := ""
  deriving DecidableEq, Repr

/-- NewSetKeysCommand from commands.go: the loop over keys returns the
error for the first invalid key, modelled with List.find?. -/
def NewSetKeysCommand (name : String) (keys : List String) : GoRes SetKeysCommand :=
  if !validWordMatch name then .fail .invalidSetName
  else if keys.length = 0 then .fail .missingKeys
  else
    match keys.find? (fun k => !validKeyMatch k) with
    | some k => .fail (.invalidKey k)
    | none => .ok { SetName := name, Keys := keys }

/-- FlushCommand from commands.go. -/
structure FlushCommand where
  SetName : String
  result : String := ""
  deriving DecidableEq, Repr

/-- NewFlushCommand from commands.go. -/
def NewFlushCommand (name : String) : GoRes FlushCommand :=
  if name ≠ "" && !validWordMatch name then .fail .invalidSetName
  else .ok { SetName := name }

/-- InfoCommand from commands.go. -/
structure InfoCommand where
  SetName : String
  lines : List String := []
  done : Bool := false
  notExist : Bool := false
  deriving DecidableEq, Repr

/-- NewInfoCommand from commands.go. -/
def NewInfoCommand (name : String) : GoRes InfoCommand :=
  if !validWordMatch name then .fail .invalidSetName
  else .ok { SetName := name }

/- The bufio.Reader is modelled as the list of newline-terminated lines
remaining on the stream; ReadString('\n') pops the next line, and an
exhausted stream is the io.EOF read error. -/

/-- bufio.Reader.ReadString('\n') as used by every Decode method. -/
def readLine : List String → GoRes (String × List String)
  | [] => .fail .eof
  | l :: r => .ok (l, r)

/-- CreateCommand.Decode from commands.go. -/
def CreateCommand.Decode (c : CreateCommand) (r : List String) :
    GoRes (CreateCommand × List String) :=
  match readLine r with
  | .ok (resp, rest) => .ok ({ c with result := resp }, rest)
  | .fail e => .fail e
  | .panicked m => .panicked m

/-- CreateCommand.Result from commands.go (the Go switch on c.result). -/
def CreateCommand.Result (c : CreateCommand) : GoRes Bool :=
  if c.result = "" then .fail .notDecoded
  else if c.result = "Done\n" then .ok true
  else if c.result = "Exists\n" then .ok true
  else if c.result = "Delete in progress\n" then .ok false
  else .fail (.invalidResponse c.result)

/-- The loop body of ListCommand.Decode from commands.go, recursing on
the remaining stream. -/
def listDecodeLoop (c : ListCommand) (started : Bool) :
    List String → GoRes (ListCommand × List String)
  | [] => .fail .eof
  | resp :: rest =>
    if !started then
      if resp ≠ "START\n" then .fail .expectStart
      else listDecodeLoop c true rest
    else if resp = "END\n" then .ok ({ c with done := true }, rest)
    else listDecodeLoop { c with lines := c.lines ++ [resp] } started rest

/-- ListCommand.Decode from commands.go. -/
def ListCommand.Decode (c : ListCommand) (r : List String) :
    GoRes (ListCommand × List String) :=
  listDecodeLoop c false r

/-- Numeric value of a digit string. -/
def digitsVal (cs : List Char) : Nat :=
  cs.foldl (fun a c => a * 10 + (c.toNat - 48)) 0

/-- Split a character list at every occurrence of sep, keeping empty
segments (the behavior of strings.Split / splitting on a verb
separator). -/
def splitChar (sep : Char) : List Char → List (List Char)
  | [] => [[]]
  | c :: rest =>
    if c = sep then [] :: splitChar sep rest
    else
      match splitChar sep rest with
      | t :: ts => (c :: t) :: ts
      | [] => [[c]]

/-- Accumulator loop for spaceFields. -/
def spaceFieldsAux : List Char → List Char → List String
  | [], acc => if acc.isEmpty then [] else [String.mk acc.reverse]
  | c :: rest, acc =>
    if c = ' ' then
      if acc.isEmpty then spaceFieldsAux rest []
      else String.mk acc.reverse :: spaceFieldsAux rest []
    else spaceFieldsAux rest (c :: acc)

/-- The maximal space-separated fields of a line, the way successive %s
and numeric verbs of Sscanf walk it: a format-string space skips any run
of spaces, and each verb takes the next non-space run. -/
def spaceFields (cs : List Char) : List String :=
  spaceFieldsAux cs []

/-- A non-empty all-digit token, as accepted by the %d verb for an
unsigned target and by strconv.ParseUint before its range check. -/
def parseDigits (s : String) : Option Nat :=
  if s ≠ "" ∧ s.data.all Char.isDigit then some (digitsVal s.data) else none

/-- strconv.ParseUint(num, 10, 64): digits only, value below 2^64. -/
def parseUint64 (s : String) : Option Nat :=
  match parseDigits s with
  | some v => if v < 2 ^ 64 then some v else none
  | none => none

/-- A decimal integer with optional leading minus, as accepted by the
%d verb for a signed target on the inputs this protocol produces. -/
def parseIntTok (s : String) : Option Int :=
  match s.data with
  | '-' :: rest =>
    if rest ≠ [] ∧ rest.all Char.isDigit then some (-(digitsVal rest : Int)) else none
  | cs => if cs ≠ [] ∧ cs.all Char.isDigit then some ((digitsVal cs : Int)) else none

/-- digits[.digits] with no sign. -/
def parseFloatCore (cs : List Char) : Option Rat :=
  match splitChar '.' cs with
  | [ip] =>
    if ip ≠ [] ∧ ip.all Char.isDigit then some (mkRat (digitsVal ip) 1) else none
  | [ip, fp] =>
    if ip ≠ [] ∧ ip.all Char.isDigit ∧ fp ≠ [] ∧ fp.all Char.isDigit then
      some (mkRat ((digitsVal ip : Int) * 10 ^ fp.length + (digitsVal fp : Int)) (10 ^ fp.length))
    else none
  | _ => none

/-- A fixed-point decimal with optional leading minus, the subset of the
float syntax of the %f verb and strconv.ParseFloat that the hlld wire
format produces; the float64 value is modelled by the exact rational. -/
def parseFloatTok (s : String) : Option Rat :=
  match s.data with
  | '-' :: rest => (parseFloatCore rest).map fun q => -q
  | cs => parseFloatCore cs

/-- One line of list output parsed per the Sscanf format
"%s %f %d %d %d\n" of ListCommand.Result: five space-separated tokens on
a newline-terminated line, the last four numeric (the final two scanned
into uint64 targets). -/
def parseListLine (line : String) : Option ListEntry :=
  let cs := line.data
  if cs ≠ [] ∧ cs.getLastD ' ' = '\n' then
    match spaceFields cs.dropLast with
    | [nm, t1, t2, t3, t4] =>
      match parseFloatTok t1, parseIntTok t2, parseUint64 t3, parseUint64 t4 with
      | some q, some p, some sz, some st =>
        some { Name := nm, ErrThreshold := q, Precision := p, Size := sz, Storage := st }
      | _, _, _, _ => none
    | _ => none
  else none

/-- The loop of ListCommand.Result: parse each stored line in order,
returning the error for the first malformed line. -/
def parseListLines : List String → GoRes (List ListEntry)
  | [] => .ok []
  | l :: rest =>
    match parseListLine l with
    | none => .fail (.parseFailed l)
    | some e =>
      match parseListLines rest with
      | .ok es => .ok (e :: es)
      | .fail er => .fail er
      | .panicked m => .panicked m

/-- ListCommand.Result from commands.go. -/
def ListCommand.Result (c : ListCommand) : GoRes (List ListEntry) :=
  if !c.done then .fail .notDecoded
  else parseListLines c.lines

/-- SetCommand.Decode from commands.go. -/
def SetCommand.Decode (c : SetCommand) (r : List String) :
    GoRes (SetCommand × List String) :=
  match readLine r with
  | .ok (resp, rest) => .ok ({ c with result := resp }, rest)
  | .fail e => .fail e
  | .panicked m => .panicked m

/-- SetCommand.Result from commands.go (the Go switch on c.result,
including the drop special case for a missing set). -/
def SetCommand.Result (c : SetCommand) : GoRes Bool :=
  if c.result = "" then .fail .notDecoded
  else if c.result = "Done\n" then .ok true
  else if c.result = "Set does not exist\n" then
    if c.Command = "drop" then .ok true else .ok false
  else if c.result = "Set is not proxied. Close it first.\n" then .ok false
  else .fail (.invalidResponse c.result)

/-- SetKeysCommand.Result from commands.go. -/
def SetKeysCommand.Result (c : SetKeysCommand) : GoRes Bool :=
  if c.result = "" then .fail .notDecoded
  else if c.result = "Done\n" then .ok true
  else if c.result = "Set does not exist\n" then .ok false
  else .fail (.invalidResponse c.result)

/-- FlushCommand.Result from commands.go. -/
def FlushCommand.Result (c : FlushCommand) : GoRes Bool :=
  if c.result = "" then .fail .notDecoded
  else if c.result = "Done\n" then .ok true
  else if c.result = "Set does not exist\n" then .ok false
  else .fail (.invalidResponse c.result)

/-- The loop body of InfoCommand.Decode from commands.go. -/
def infoDecodeLoop (c : InfoCommand) (started : Bool) :
    List String → GoRes (InfoCommand × List String)
  | [] => .fail .eof
  | resp :: rest =>
    if !started then
      if resp = "Set does not exist\n" then
        .ok ({ c with done := true, notExist := true }, rest)
      else if resp = "START\n" then
        infoDecodeLoop { c with notExist := false } true rest
      else .fail (.invalidResponse resp)
    else if resp = "END\n" then .ok ({ c with done := true }, rest)
    else infoDecodeLoop { c with lines := c.lines ++ [resp] } started rest

/-- InfoCommand.Decode from commands.go. -/
def InfoCommand.Decode (c : InfoCommand) (r : List String) :
    GoRes (InfoCommand × List String) :=
  infoDecodeLoop c false r

/-- SetInfo from commands.go; defaults are the Go zero values of the
struct literal in InfoCommand.Result. -/
structure SetInfo where
  InMemory : Bool := false
  PageIns : Nat := 0
  PageOuts : Nat := 0
  ErrThreshold : Rat := 0
  Precision : Nat := 0
  Sets : Nat := 0
  Size : Nat := 0
  Storage : Nat := 0
  deriving DecidableEq, Repr

/-- strings.HasPrefix. -/
def strHasPre (s pre : String) : Bool :=
  pre.data.isPrefixOf s.data

/-- Go byte indexing s[i]: panics when i is out of range. -/
def goIndex (s : String) (i : Int) : GoRes Char :=
  if 0 ≤ i ∧ i < (s.length : Int) then .ok (s.data.getD i.toNat ' ')
  else .panicked "index out of range"

/-- Go slicing s[lo:hi]: requires 0 ≤ lo ≤ hi ≤ len(s), panics
otherwise. -/
def goSlice (s : String) (lo hi : Int) : GoRes String :=
  if 0 ≤ lo ∧ lo ≤ hi ∧ hi ≤ (s.length : Int) then
    .ok (String.mk ((s.data.drop lo.toNat).take (hi - lo).toNat))
  else .panicked "slice bounds out of range"

/-- The slice line[lo : len(line)-1] used for every numeric field of
InfoCommand.Result. -/
def numField (line : String) (lo : Int) : GoRes String :=
  goSlice line lo ((line.length : Int) - 1)

/-- Slice out a numeric field, parse it with strconv.ParseUint and store
it; a parse failure is the "failed to parse" error of
InfoCommand.Result. -/
def uintField (info : SetInfo) (line : String) (lo : Int)
    (set : SetInfo → Nat → SetInfo) : GoRes SetInfo :=
  match numField line lo with
  | .ok num =>
    match parseUint64 num with
    | some v => .ok (set info v)
    | none => .fail (.parseFailed line)
  | .fail e => .fail e
  | .panicked m => .panicked m

/-- One iteration of the line loop of InfoCommand.Result, with the
prefix cases in source order. -/
def infoLineStep (info : SetInfo) (line : String) : GoRes SetInfo :=
  if strHasPre line "in_memory" then
    match goIndex line 10 with
    | .ok ch => .ok { info with InMemory := ch == '1' }
    | .fail e => .fail e
    | .panicked m => .panicked m
  else if strHasPre line "page_ins" then
    uintField info line 9 fun i v => { i with PageIns := v }
  else if strHasPre line "page_outs" then
    uintField info line 10 fun i v => { i with PageOuts := v }
  else if strHasPre line "eps" then
    match numField line 4 with
    | .ok num =>
      match parseFloatTok num with
      | some q => .ok { info with ErrThreshold := q }
      | none => .fail (.parseFailed line)
    | .fail e => .fail e
    | .panicked m => .panicked m
  else if strHasPre line "precision" then
    uintField info line 10 fun i v => { i with Precision := v }
  else if strHasPre line "sets" then
    uintField info line 5 fun i v => { i with Sets := v }
  else if strHasPre line "size" then
    uintField info line 5 fun i v => { i with Size := v }
  else if strHasPre line "storage" then
    uintField info line 8 fun i v => { i with Storage := v }
  else .fail (.parseFailed line)

/-- The line loop of InfoCommand.Result. -/
def infoLinesLoop (info : SetInfo) : List String → GoRes SetInfo
  | [] => .ok info
  | l :: rest =>
    match infoLineStep info l with
    | .ok info2 => infoLinesLoop info2 rest
    | .fail e => .fail e
    | .panicked m => .panicked m

/-- InfoCommand.Result from commands.go: (nil, false, err) before
decode, (nil, false, nil) for a missing set (ok none), and otherwise the
parsed SetInfo (ok (some info)). -/
def InfoCommand.Result (c : InfoCommand) : GoRes (Option SetInfo) :=
  if !c.done then .fail .notDecoded
  else if c.notExist then .ok none
  else
    match infoLinesLoop {} c.lines with
    | .ok i => .ok (some i)
    | .fail e => .fail e
    | .panicked m => .panicked m

/-- A natural number printed in decimal and zero-padded on the left to
six digits, for the fractional part of the %f verb. -/
def natPad6 (n : Nat) : String :=
  let s := toString n
  String.mk (List.replicate (6 - s.length) '0') ++ s

/-- The %f verb of fmt.Fprintf at its default precision: fixed-point
with exactly six fractional digits, rounding the value q = num/den to
the nearest multiple of 10^-6.  The rounded numerator
round(q·10^6) = ⌊(q·10^6) + 1/2⌋ is computed on the numerator and
denominator directly: ⌊n/d + 1/2⌋ = fdiv (2n + d) (2d) for d > 0.  The
float64 argument is modelled by a rational; no value this client
formats sits at a rounding tie. -/
def fmtFloat6 (q : Rat) : String :=
  let n : Int := Int.fdiv (2 * (q.num * 1000000) + (q.den : Int)) (2 * (q.den : Int))
  let m := n.natAbs
  (if n < 0 then "-" else "") ++ toString (m / 1000000) ++ "." ++ natPad6 (m % 1000000)

/-- bufio.Writer.WriteString into an in-memory buffer (writes into a
buffer cannot fail, so the Go error returns are elided). -/
def writeStr (w s : String) : String := w ++ s

/-- CreateCommand.Encode from commands.go, as the sequence of writer
operations the Go method performs. -/
def CreateCommand.Encode (c : CreateCommand) (w : String) : String :=
  let w := writeStr w "create "
  let w := writeStr w c.SetName
  let w := if c.Precision ≠ 0 then writeStr w (" precision=" ++ toString c.Precision) else w
  let w := if c.ErrThreshold ≠ 0 then writeStr w (" eps=" ++ fmtFloat6 c.ErrThreshold) else w
  let w := if c.InMemory ≠ false then writeStr w " in_memory=true" else w
  writeStr w "\n"

/-- The bytes CreateCommand.Encode leaves in an initially empty
buffer. -/
def createEncodeStr (c : CreateCommand) : String :=
  c.Encode ""

/- ----------------------------------------------------------------- -/
/- The pipelining client: Close, the reader task error path, and the
   FIFO correlation between Execute and the reader task. -/

/-- The client state touched by Client.Close: the closedLock mutex, the
closed flag, the closedCh channel and the connection.  sync.Mutex is not
reentrant, and no statement in the repository ever calls
closedLock.Unlock, so a goroutine that finds the mutex held blocks
forever. -/
structure ClientState where
  closedLockHeld : Bool := false
  closed : Bool := false
  closedChClosed : Bool := false
  connClosed : Bool := false
  deriving DecidableEq, Repr

/-- How a call to Client.Close ends: it returns nil, or it blocks
forever at a Lock call (the final client state records the side effects
performed before blocking). -/
inductive CloseOutcome where
  | returned (s : ClientState)
  | blockedForever (site : String) (s : ClientState)
  deriving DecidableEq, Repr

/-- Client.Close, statement by statement: `c.closedLock.Lock()`, then
`defer c.closedLock.Lock()` (sic — the source defers Lock, not Unlock),
then the early return on c.closed, else set closed, close closedCh,
close the connection, return nil.  The deferred Lock runs as the
function returns; the mutex it takes was acquired at entry and is never
unlocked anywhere in the program. -/
def clientClose (s0 : ClientState) : CloseOutcome :=
  if s0.closedLockHeld then .blockedForever "closedLock.Lock" s0
  else
    let s1 : ClientState := { s0 with closedLockHeld := true }
    let s2 :=
      if s1.closed then s1
      else { s1 with closed := true, closedChClosed := true, connClosed := true }
    if s2.closedLockHeld then .blockedForever "deferred closedLock.Lock" s2
    else .returned { s2 with closedLockHeld := true }

/-- What the reader task delivers after a decode error, per
Client.reader: the error handed to the failing command's future, the
(future id, error) pairs delivered by the DRAIN loop in order, how the
embedded Close call ended, and whether the task reached its return. -/
structure ReaderErrResult where
  triggerErr : GoErr
  drained : List (Nat × GoErr)
  closeOutcome : CloseOutcome
  exited : Bool
  deriving DecidableEq, Repr

/-- The error path of Client.reader from the client source: after
`next.Command().Decode` fails with e, the task runs `next.respond(err)`,
then `c.Close()`, then `goto DRAIN`, and DRAIN responds ErrClientClosed
to every future still in the decode channel before returning.  The DRAIN
statements run only if the Close call returns. -/
def readerOnDecodeError (e : GoErr) (s : ClientState) (pending : List Nat) :
    ReaderErrResult :=
  match clientClose s with
  | .returned s2 =>
    { triggerErr := e
      drained := pending.map fun i => (i, GoErr.clientClosed)
      closeOutcome := .returned s2
      exited := true }
  | .blockedForever site s2 =>
    { triggerErr := e
      drained := []
      closeOutcome := .blockedForever site s2
      exited := false }

/-- Abstract state of one client's pipeline: how many commands Execute
has flushed and enqueued (futures are numbered in flush order), the
pending FIFO (the decode channel), how many responses the reader has
consumed off the stream, and which (future, response index) pairs have
been resolved, in resolution order. -/
structure PipeState where
  submitted : Nat := 0
  queue : List Nat := []
  consumed : Nat := 0
  resolved : List (Nat × Nat) := []
  deriving DecidableEq, Repr

/-- Interleaving semantics of the client.  An exec step is one
Client.Execute: encode+flush and the decodeCh push happen under the
writeLock, so flush order equals enqueue order and the two are one
atomic step here.  A read step is one iteration of Client.reader: it
takes the future at the head of the decode channel, consumes the next
response unit off the stream (the peer answers in the order requests
were received, so the next unit is response number `consumed`) and
resolves that future with it. -/
inductive PipeStep : PipeState → PipeState → Prop
  | exec (s : PipeState) :
      PipeStep s ⟨s.submitted + 1, s.queue ++ [s.submitted], s.consumed, s.resolved⟩
  | read (s : PipeState) (id : Nat) (rest : List Nat) (h : s.queue = id :: rest) :
      PipeStep s ⟨s.submitted, rest, s.consumed + 1, s.resolved ++ [(id, s.consumed)]⟩

/-- States reachable from a fresh client by any interleaving of Execute
calls and reader iterations. -/
def PipeReachable (s : PipeState) : Prop :=
  Relation.ReflTransGen PipeStep {} s

/-- Pipeline invariant: futures are pending in submission order and
exactly the first `consumed` futures have been resolved, each with its
own response index. -/
def PipeInv (s : PipeState) : Prop :=
  s.submitted = s.consumed + s.queue.length ∧
  s.queue = List.range' s.consumed s.queue.length ∧
  s.resolved = (List.range s.consumed).map fun i => (i, i)

/-- The specification's name-token condition, following its words: a
non-empty string over letters, digits, underscore and hyphen.  Stated
separately from validWordMatch (which is translated from the source
regular expression) so the two can be compared. -/
def SpecValidName (n : String) : Prop :=
  n ≠ "" ∧ ∀ c ∈ n.data, (c.isAlpha = true ∨ c.isDigit = true ∨ c = '_' ∨ c = '-')

/-- The key condition exactly as the claim words it: the key contains no
space, tab, carriage return, or newline byte (note: nothing here
requires the key to be non-empty). -/
def SpecKeyOk (k : String) : Prop :=
  ∀ c ∈ k.data, ¬(c = ' ' ∨ c = '\t' ∨ c = '\r' ∨ c = '\n')

instance (n : String) : Decidable (SpecValidName n) := by
  unfold SpecValidName
  infer_instance

instance (k : String) : Decidable (SpecKeyOk k) := by
  unfold SpecKeyOk
  infer_instance

/-- The source regular expression for names accepts exactly the
specification's name tokens. -/
lemma validWordMatch_iff (s : String) : validWordMatch s = true ↔ SpecValidName s := by
  unfold validWordMatch SpecValidName wordChar
  simp [List.all_eq_true, Bool.eq_false_iff, String.isEmpty_iff, or_assoc]

/-- The source regular expression for keys accepts exactly the
non-empty strings satisfying the claim's key condition. -/
lemma validKeyMatch_iff (k : String) : validKeyMatch k = true ↔ (k ≠ "" ∧ SpecKeyOk k) := by
  unfold validKeyMatch SpecKeyOk
  simp [List.all_eq_true, Bool.eq_false_iff, String.isEmpty_iff, not_or, and_assoc]

/-- The buffer CreateCommand.Encode builds, written as one
concatenation with the three optional fields explicit. -/
lemma createEncode_shape (c : CreateCommand) :
    createEncodeStr c =
      "create " ++ c.SetName ++
        (if c.Precision = 0 then "" else " precision=" ++ toString c.Precision) ++
        (if c.ErrThreshold = 0 then "" else " eps=" ++ fmtFloat6 c.ErrThreshold) ++
        (if c.InMemory then " in_memory=true" else "") ++ "\n" := by
  unfold createEncodeStr CreateCommand.Encode writeStr
  by_cases h1 : c.Precision = 0 <;> by_cases h2 : c.ErrThreshold = 0 <;>
    by_cases h3 : c.InMemory <;>
      simp [h1, h2, h3, String.empty_append, String.append_empty, String.append_assoc]

/-- The fresh client satisfies the pipeline invariant. -/
lemma pipeInv_init : PipeInv {} :=
  ⟨rfl, rfl, rfl⟩

/-- Every Execute step and every reader iteration preserves the
pipeline invariant. -/
lemma pipeInv_step {s t : PipeState} (h : PipeStep s t) (hs : PipeInv s) : PipeInv t := by
  obtain ⟨h1, h2, h3⟩ := hs
  cases h with
  | exec =>
    refine ⟨?_, ?_, h3⟩
    · simp only [List.length_append, List.length_cons, List.length_nil]
      omega
    · have hlen : (s.queue ++ [s.submitted]).length = s.queue.length + 1 := by simp
      rw [hlen, List.range'_concat, Nat.one_mul, ← h2, h1]
  | read id rest hq =>
    rw [hq] at h2
    simp only [List.length_cons] at h2
    rw [List.range'_succ] at h2
    injection h2 with hid hrest
    have hql : s.queue.length = rest.length + 1 := by rw [hq]; simp
    refine ⟨?_, ?_, ?_⟩
    · simp only []
      omega
    · simpa using hrest
    · simp only [h3, hid, List.range_succ, List.map_append, List.map_cons, List.map_nil]

/-- Any reachable pipeline state satisfies the invariant. -/
lemma pipeReachable_inv {s : PipeState} (h : PipeReachable s) : PipeInv s := by
  induction h with
  | refl => exact pipeInv_init
  | tail _ hstep ih => exact pipeInv_step hstep ih

/-- Claim C1: on one client, writes are serialized and futures are
enqueued in flush order, the reader consumes the pending queue strictly
FIFO against in-order responses, so in every reachable pipeline state
the k-th resolution pairs future k with response k: response N is
matched to request N for all N. -/
theorem pipeline_fifo_correlation (s : PipeState) (h : PipeReachable s) :
    s.resolved = (List.range s.resolved.length).map fun i => (i, i) := by
  obtain ⟨-, -, h3⟩ := pipeReachable_inv h
  rw [h3]
  simp

/-- Witness for C1: a concrete interleaving (Execute, Execute, reader
iteration) reaches a state where future 0 is resolved with response 0. -/
theorem pipeline_fifo_correlation_witness :
    (PipeState.mk 2 [1] 1 [(0, 0)]).resolved =
      (List.range (PipeState.mk 2 [1] 1 [(0, 0)]).resolved.length).map fun i => (i, i) := by
  apply pipeline_fifo_correlation
  have s1 : PipeStep {} (PipeState.mk 1 [0] 0 []) := PipeStep.exec {}
  have s2 : PipeStep (PipeState.mk 1 [0] 0 []) (PipeState.mk 2 [0, 1] 0 []) :=
    PipeStep.exec _
  have s3 : PipeStep (PipeState.mk 2 [0, 1] 0 []) (PipeState.mk 2 [1] 1 [(0, 0)]) :=
    PipeStep.read _ 0 [1] rfl
  exact ((Relation.ReflTransGen.refl.tail s1).tail s2).tail s3

/-- Claim C2 (code bug): Client.Close is claimed to always terminate,
return nil and be idempotent, but the source line
`defer c.closedLock.Lock()` re-locks (instead of unlocking) a mutex that
is never unlocked anywhere, so the very first call performs its side
effects and then blocks forever in the deferred Lock, and every call
from any state blocks forever: Close never returns at all. -/
theorem close_deadlocks :
    clientClose {} =
      .blockedForever "deferred closedLock.Lock"
        { closedLockHeld := true, closed := true, closedChClosed := true, connClosed := true } ∧
    ∀ s : ClientState, ∃ site s2, clientClose s = .blockedForever site s2 := by
  refine ⟨by decide, ?_⟩
  intro s
  unfold clientClose
  by_cases h : s.closedLockHeld
  · exact ⟨"closedLock.Lock", s, by simp [h]⟩
  · by_cases h2 : s.closed
    · exact ⟨"deferred closedLock.Lock",
        { closedLockHeld := true, closed := true,
          closedChClosed := s.closedChClosed, connClosed := s.connClosed },
        by simp [h, h2]⟩
    · exact ⟨"deferred closedLock.Lock",
        { closedLockHeld := true, closed := true,
          closedChClosed := true, connClosed := true },
        by simp [h, h2]⟩

/-- Witness for C2: applying the universal part at the fresh client
state exhibits the blocked outcome. -/
theorem close_deadlocks_witness :
    ∃ site s2, clientClose {} = CloseOutcome.blockedForever site s2 :=
  close_deadlocks.2 {}

/-- Claim C3 (code bug): after a decode error the reader does resolve
the failing command's future with the decode error itself and does mark
the client closed, but the embedded Client.Close call then blocks
forever in its deferred Lock, so the DRAIN loop never runs: with one
future still pending, nothing is drained and the reader never exits,
while the claim says every pending future is resolved with the
closed-client error before the reader exits. -/
theorem reader_decode_error_no_drain :
    readerOnDecodeError .eof {} [1] =
      { triggerErr := .eof
        drained := []
        closeOutcome := .blockedForever "deferred closedLock.Lock"
          { closedLockHeld := true, closed := true, closedChClosed := true, connClosed := true }
        exited := false } := by
  decide

/-- Counterexample to claim C4 as stated: the response line
"Set is not proxied. Close it first.\n" is neither "Done\n" nor
"Set does not exist\n", yet SetCommand.Result maps it to (false, nil)
— no protocol error — for a Drop command and for a Close command
alike. -/
theorem setResult_not_proxied_counterexample :
    SetCommand.Result { Command := "drop"
                        SetName := "foo"
                        result := "Set is not proxied. Close it first.\n" } = .ok false ∧
    SetCommand.Result { Command := "close"
                        SetName := "foo"
                        result := "Set is not proxied. Close it first.\n" } = .ok false := by
  decide

/-- Claim C4 as amended: after decode, a Drop command's Result maps
"Done\n" to true, "Set does not exist\n" to true and
"Set is not proxied. Close it first.\n" to false with no error; a Close
command's Result maps "Done\n" to true and both "Set does not exist\n"
and "Set is not proxied. Close it first.\n" to false with no error; any
other response line is a protocol error. -/
theorem setResult_drop_close_mapping :
    SetCommand.Result { Command := "drop", SetName := "foo", result := "Done\n" } = .ok true ∧
    SetCommand.Result { Command := "drop"
                        SetName := "foo"
                        result := "Set does not exist\n" } = .ok true ∧
    SetCommand.Result { Command := "drop"
                        SetName := "foo"
                        result := "Set is not proxied. Close it first.\n" } = .ok false ∧
    SetCommand.Result { Command := "close", SetName := "foo", result := "Done\n" } = .ok true ∧
    SetCommand.Result { Command := "close"
                        SetName := "foo"
                        result := "Set does not exist\n" } = .ok false ∧
    SetCommand.Result { Command := "close"
                        SetName := "foo"
                        result := "Set is not proxied. Close it first.\n" } = .ok false ∧
    ∀ s : String, s ≠ "" → s ≠ "Done\n" → s ≠ "Set does not exist\n" →
      s ≠ "Set is not proxied. Close it first.\n" →
      SetCommand.Result { Command := "drop", SetName := "foo", result := s } =
          .fail (.invalidResponse s) ∧
        SetCommand.Result { Command := "close", SetName := "foo", result := s } =
          .fail (.invalidResponse s) := by
  refine ⟨by decide, by decide, by decide, by decide, by decide, by decide, ?_⟩
  intro s h1 h2 h3 h4
  constructor <;> simp [SetCommand.Result, h1, h2, h3, h4]

/-- Witness for C4: the amended mapping applied at the unrecognized
response line "Nope\n". -/
theorem setResult_drop_close_mapping_witness :
    SetCommand.Result { Command := "drop", SetName := "foo", result := "Nope\n" } =
        .fail (.invalidResponse "Nope\n") ∧
      SetCommand.Result { Command := "close", SetName := "foo", result := "Nope\n" } =
        .fail (.invalidResponse "Nope\n") :=
  setResult_drop_close_mapping.2.2.2.2.2.2 "Nope\n"
    (by decide) (by decide) (by decide) (by decide)

/-- Claim C5 (code bug): InfoCommand.Result is claimed total on decoded
blocks, but on the decodable block START/"eps\n"/END the recognized-key
case slices line[4:len-1] = line[4:3] and panics, and on "in_memory\n"
the index line[10] is past the end and panics; a well-formed block still
parses.  The claim (and the specification's "malformed value → parse
error") say these should be parse errors, not crashes. -/
theorem infoResult_panics_on_truncated_line :
    InfoCommand.Decode { SetName := "foo" } ["START\n", "eps\n", "END\n"] =
      .ok ({ SetName := "foo", lines := ["eps\n"], done := true }, []) ∧
    InfoCommand.Result { SetName := "foo", lines := ["eps\n"], done := true } =
      .panicked "slice bounds out of range" ∧
    InfoCommand.Result { SetName := "foo", lines := ["in_memory\n"], done := true } =
      .panicked "index out of range" ∧
    InfoCommand.Result { SetName := "foo"
                         lines := ["in_memory 1\n", "eps 0.02\n"]
                         done := true } =
      .ok (some { InMemory := true, ErrThreshold := mkRat 1 50 }) := by
  refine ⟨by decide, by decide, by decide, by decide⟩

/-- Claim C6: the concrete create command of the specification encodes
to exactly the claimed bytes, and in general the encoder writes the
create verb, the name, precision as a plain integer when non-zero, the
error threshold in six-decimal fixed point when non-zero, and the
in-memory flag only when true. -/
theorem createEncode_example_and_shape :
    createEncodeStr { SetName := "foo"
                      Precision := 12
                      ErrThreshold := mkRat 1 20
                      InMemory := true } =
      "create foo precision=12 eps=0.050000 in_memory=true\n" ∧
    ∀ c : CreateCommand,
      createEncodeStr c =
        "create " ++ c.SetName ++
          (if c.Precision = 0 then "" else " precision=" ++ toString c.Precision) ++
          (if c.ErrThreshold = 0 then "" else " eps=" ++ fmtFloat6 c.ErrThreshold) ++
          (if c.InMemory then " in_memory=true" else "") ++ "\n" :=
  ⟨by decide, createEncode_shape⟩

/-- Claim C7: List decode fails with the protocol error when the first
response line is not "START\n"; on the specification's example block it
consumes the lines up to and including the first "END\n" (leaving
later bytes on the stream) and Result returns one ListEntry per
intermediate line in response order with the claimed values; a
malformed entry line makes Result return the parse error. -/
theorem listCommand_decode_result_example :
    (∀ (c : ListCommand) (first : String) (rest : List String), first ≠ "START\n" →
      ListCommand.Decode c (first :: rest) = .fail .expectStart) ∧
    ListCommand.Decode { PrefixStr := "foo" }
        ["START\n", "foo 0.010000 14 13108 0\n", "baz 0.005000 16 18000 50\n", "END\n",
          "EXTRA\n"] =
      .ok ({ PrefixStr := "foo"
             lines := ["foo 0.010000 14 13108 0\n", "baz 0.005000 16 18000 50\n"]
             done := true }, ["EXTRA\n"]) ∧
    ListCommand.Result { PrefixStr := "foo"
                         lines := ["foo 0.010000 14 13108 0\n", "baz 0.005000 16 18000 50\n"]
                         done := true } =
      .ok [{ Name := "foo"
             ErrThreshold := mkRat 1 100
             Precision := 14
             Size := 13108
             Storage := 0 },
           { Name := "baz"
             ErrThreshold := mkRat 1 200
             Precision := 16
             Size := 18000
             Storage := 50 }] ∧
    ListCommand.Result { PrefixStr := "foo"
                         lines := ["foo 0.010000 14 13108 0\n", "garbage\n"]
                         done := true } =
      .fail (.parseFailed "garbage\n") := by
  refine ⟨?_, by decide, by decide, by decide⟩
  intro c first rest h
  simp [ListCommand.Decode, listDecodeLoop, h]

/-- Witness for C7: decoding a stream whose first line is not the START
marker yields the protocol error. -/
theorem listCommand_decode_result_example_witness :
    ListCommand.Decode { PrefixStr := "foo" } ["Done\n"] = .fail .expectStart :=
  listCommand_decode_result_example.1 { PrefixStr := "foo" } "Done\n" [] (by decide)

/-- Claim C8: for every command variant, the command a successful
constructor returns (on which no decode has run: result is empty, done
is false) answers its Result accessor with the "result not decoded yet"
error. -/
theorem result_before_decode_errors :
    (∀ n cmd, NewCreateCommand n = .ok cmd → cmd.Result = .fail .notDecoded) ∧
    (∀ n cmd, NewListCommand n = .ok cmd → cmd.Result = .fail .notDecoded) ∧
    (∀ n cmd, NewDropCommand n = .ok cmd → cmd.Result = .fail .notDecoded) ∧
    (∀ n cmd, NewCloseCommand n = .ok cmd → cmd.Result = .fail .notDecoded) ∧
    (∀ n cmd, NewClearCommand n = .ok cmd → cmd.Result = .fail .notDecoded) ∧
    (∀ n keys cmd, NewSetKeysCommand n keys = .ok cmd → cmd.Result = .fail .notDecoded) ∧
    (∀ n cmd, NewFlushCommand n = .ok cmd → cmd.Result = .fail .notDecoded) ∧
    (∀ n cmd, NewInfoCommand n = .ok cmd → cmd.Result = .fail .notDecoded) := by
  refine ⟨?_, ?_, ?_, ?_, ?_, ?_, ?_, ?_⟩
  · intro n cmd h
    unfold NewCreateCommand at h
    split at h
    · simp at h
    · cases h
      simp [CreateCommand.Result]
  · intro n cmd h
    unfold NewListCommand at h
    split at h
    · simp at h
    · cases h
      simp [ListCommand.Result]
  · intro n cmd h
    unfold NewDropCommand at h
    split at h
    · simp at h
    · cases h
      simp [SetCommand.Result]
  · intro n cmd h
    unfold NewCloseCommand at h
    split at h
    · simp at h
    · cases h
      simp [SetCommand.Result]
  · intro n cmd h
    unfold NewClearCommand at h
    split at h
    · simp at h
    · cases h
      simp [SetCommand.Result]
  · intro n keys cmd h
    unfold NewSetKeysCommand at h
    split at h
    · simp at h
    · split at h
      · simp at h
      · split at h
        · simp at h
        · cases h
          simp [SetKeysCommand.Result]
  · intro n cmd h
    unfold NewFlushCommand at h
    split at h
    · simp at h
    · cases h
      simp [FlushCommand.Result]
  · intro n cmd h
    unfold NewInfoCommand at h
    split at h
    · simp at h
    · cases h
      simp [InfoCommand.Result]

/-- Witness for C8: each freshly constructed command variant reports
the not-yet-decoded error from its Result accessor. -/
theorem result_before_decode_errors_witness :
    CreateCommand.Result { SetName := "foo" } = .fail .notDecoded ∧
    ListCommand.Result { PrefixStr := "foo" } = .fail .notDecoded ∧
    SetCommand.Result { Command := "drop", SetName := "foo" } = .fail .notDecoded ∧
    SetCommand.Result { Command := "close", SetName := "foo" } = .fail .notDecoded ∧
    SetCommand.Result { Command := "clear", SetName := "foo" } = .fail .notDecoded ∧
    SetKeysCommand.Result { SetName := "foo", Keys := ["bar"] } = .fail .notDecoded ∧
    FlushCommand.Result { SetName := "foo" } = .fail .notDecoded ∧
    InfoCommand.Result { SetName := "foo" } = .fail .notDecoded :=
  ⟨result_before_decode_errors.1 "foo" { SetName := "foo" } (by decide),
   result_before_decode_errors.2.1 "foo" { PrefixStr := "foo" } (by decide),
   result_before_decode_errors.2.2.1 "foo" { Command := "drop", SetName := "foo" } (by decide),
   result_before_decode_errors.2.2.2.1 "foo" { Command := "close", SetName := "foo" }
     (by decide),
   result_before_decode_errors.2.2.2.2.1 "foo" { Command := "clear", SetName := "foo" }
     (by decide),
   result_before_decode_errors.2.2.2.2.2.1 "foo" ["bar"] { SetName := "foo", Keys := ["bar"] }
     (by decide),
   result_before_decode_errors.2.2.2.2.2.2.1 "foo" { SetName := "foo" } (by decide),
   result_before_decode_errors.2.2.2.2.2.2.2 "foo" { SetName := "foo" } (by decide)⟩

/-- Counterexample to claim C9 as stated: for the empty-string key the
claim's conditions all hold — the set name is a valid name token, the
key list is non-empty, and "" contains no space, tab, carriage return
or newline byte — yet NewSetKeysCommand rejects it, because the source
key pattern `[^ \t\r\n]+` also requires each key to be non-empty. -/
theorem setKeys_empty_key_counterexample :
    NewSetKeysCommand "foo" [""] = .fail (.invalidKey "") ∧
    SpecValidName "foo" ∧ ([""] : List String) ≠ [] ∧
    ∀ k ∈ ([""] : List String), SpecKeyOk k := by
  refine ⟨by decide, by decide, by decide, by decide⟩

/-- Claim C9 as amended: each name-taking constructor succeeds exactly
when the name is a non-empty string over letters, digits, underscore
and hyphen; List and Flush also accept the empty string; and
NewSetKeysCommand additionally requires a non-empty key list in which
every key is non-empty (the amendment) and free of space, tab, carriage
return and newline bytes.  The constructors are pure: a failure is
returned before any encoding or I/O state exists. -/
theorem constructor_validation_characterization :
    (∀ n, (∃ cmd, NewCreateCommand n = .ok cmd) ↔ SpecValidName n) ∧
    (∀ n, (∃ cmd, NewDropCommand n = .ok cmd) ↔ SpecValidName n) ∧
    (∀ n, (∃ cmd, NewCloseCommand n = .ok cmd) ↔ SpecValidName n) ∧
    (∀ n, (∃ cmd, NewClearCommand n = .ok cmd) ↔ SpecValidName n) ∧
    (∀ n, (∃ cmd, NewInfoCommand n = .ok cmd) ↔ SpecValidName n) ∧
    (∀ n, (∃ cmd, NewListCommand n = .ok cmd) ↔ (n = "" ∨ SpecValidName n)) ∧
    (∀ n, (∃ cmd, NewFlushCommand n = .ok cmd) ↔ (n = "" ∨ SpecValidName n)) ∧
    (∀ n keys, (∃ cmd, NewSetKeysCommand n keys = .ok cmd) ↔
      (SpecValidName n ∧ keys ≠ [] ∧ ∀ k ∈ keys, k ≠ "" ∧ SpecKeyOk k)) := by
  refine ⟨?_, ?_, ?_, ?_, ?_, ?_, ?_, ?_⟩
  · intro n
    rw [← validWordMatch_iff]
    by_cases h : validWordMatch n = true <;> simp [NewCreateCommand, h]
  · intro n
    rw [← validWordMatch_iff]
    by_cases h : validWordMatch n = true <;> simp [NewDropCommand, h]
  · intro n
    rw [← validWordMatch_iff]
    by_cases h : validWordMatch n = true <;> simp [NewCloseCommand, h]
  · intro n
    rw [← validWordMatch_iff]
    by_cases h : validWordMatch n = true <;> simp [NewClearCommand, h]
  · intro n
    rw [← validWordMatch_iff]
    by_cases h : validWordMatch n = true <;> simp [NewInfoCommand, h]
  · intro n
    by_cases h0 : n = ""
    · subst h0
      simp [NewListCommand]
    · rw [← validWordMatch_iff]
      by_cases h : validWordMatch n = true <;> simp [NewListCommand, h0, h]
  · intro n
    by_cases h0 : n = ""
    · subst h0
      simp [NewFlushCommand]
    · rw [← validWordMatch_iff]
      by_cases h : validWordMatch n = true <;> simp [NewFlushCommand, h0, h]
  · intro n keys
    by_cases hn : validWordMatch n = true
    · by_cases hk : keys.length = 0
      · rw [List.length_eq_zero] at hk
        subst hk
        simp [NewSetKeysCommand, hn, (validWordMatch_iff n).mp hn]
      · cases hf : keys.find? (fun k => !validKeyMatch k) with
        | some k =>
          have hkm : ¬ validKeyMatch k = true := by
            have := List.find?_some hf
            simpa using this
          have hkmem : k ∈ keys := List.mem_of_find?_eq_some hf
          simp only [NewSetKeysCommand, hn, hk, hf, Bool.not_true, if_false,
            Bool.false_eq_true, if_neg]
          constructor
          · intro hex
            obtain ⟨cmd, hcmd⟩ := hex
            simp at hcmd
          · intro hyp
            exact absurd (validKeyMatch_iff k |>.mpr (hyp.2.2 k hkmem)) hkm
        | none =>
          have hall : ∀ k ∈ keys, validKeyMatch k = true := by
            intro k hkmem
            have := List.find?_eq_none.mp hf k hkmem
            simpa using this
          simp only [NewSetKeysCommand, hn, hk, hf, Bool.not_true, if_false,
            Bool.false_eq_true, if_neg]
          constructor
          · intro _
            refine ⟨(validWordMatch_iff n).mp hn, ?_, ?_⟩
            · intro hnil
              subst hnil
              simp at hk
            · intro k hkmem
              exact (validKeyMatch_iff k).mp (hall k hkmem)
          · intro _
            exact ⟨_, rfl⟩
    · constructor
      · intro hex
        obtain ⟨cmd, hcmd⟩ := hex
        simp [NewSetKeysCommand, hn] at hcmd
      · intro hyp
        exact absurd ((validWordMatch_iff n).mpr hyp.1) hn

/-- Witness for C9: the amended characterization applied at a valid
name and key list, and at a name containing a space. -/
theorem constructor_validation_characterization_witness :
    (∃ cmd, NewSetKeysCommand "foo" ["bar"] = .ok cmd) ∧
    ¬ ∃ cmd, NewCreateCommand "foo 123" = .ok cmd :=
  ⟨(constructor_validation_characterization.2.2.2.2.2.2.2 "foo" ["bar"]).mpr
      ⟨by decide, by decide, by decide⟩,
   fun hex =>
    (by decide : ¬ SpecValidName "foo 123")
      ((constructor_validation_characterization.1 "foo 123").mp hex)⟩

/-- Claim C10: CreateCommand.Encode writes the precision field exactly
when the Precision field is non-zero and the eps field exactly when the
ErrThreshold field is non-zero (stated for the encoder's output bytes,
over a fixed set name so the substrings can only come from the optional
fields), so precision 0 or threshold 0.0 can never be requested
explicitly on the wire; and no range check exists anywhere, so a
negative precision is encoded verbatim. -/
theorem createEncode_optional_fields :
    (∀ p : Int,
      (" precision=".data <:+: (createEncodeStr { SetName := "foo", Precision := p }).data) ↔
        p ≠ 0) ∧
    (∀ q : Rat,
      (" eps=".data <:+: (createEncodeStr { SetName := "foo", ErrThreshold := q }).data) ↔
        q ≠ 0) ∧
    createEncodeStr { SetName := "foo", Precision := -3 } = "create foo precision=-3\n" := by
  refine ⟨?_, ?_, by decide⟩
  · intro p
    constructor
    · intro hinf hp
      rw [hp] at hinf
      exact absurd hinf (by decide)
    · intro hp
      have hshape := createEncode_shape { SetName := "foo", Precision := p }
      rw [hshape]
      simp only [if_neg hp, if_pos rfl, if_neg (Bool.false_ne_true), String.data_append]
      exact ⟨"create ".data ++ "foo".data, (toString p).data ++ "\n".data, by
        simp [List.append_assoc]⟩
  · intro q
    constructor
    · intro hinf hq
      rw [hq] at hinf
      exact absurd hinf (by decide)
    · intro hq
      have hshape := createEncode_shape { SetName := "foo", ErrThreshold := q }
      rw [hshape]
      simp only [if_neg hq, if_pos rfl, if_neg (Bool.false_ne_true), String.data_append]
      exact ⟨"create ".data ++ "foo".data, (fmtFloat6 q).data ++ "\n".data, by
        simp [List.append_assoc]⟩

/-- Witness for C10: a non-zero precision and a non-zero error
threshold each make their field appear in the encoded bytes. -/
theorem createEncode_optional_fields_witness :
    (" precision=".data <:+: (createEncodeStr { SetName := "foo", Precision := 12 }).data) ∧
    (" eps=".data <:+: (createEncodeStr { SetName := "foo", ErrThreshold := mkRat 1 20 }).data) :=
  ⟨(createEncode_optional_fields.1 12).mpr (by decide),
   (createEncode_optional_fields.2.1 (mkRat 1 20)).mpr (by decide)⟩

end Hlld
